import Mathlib

/-!
Shallow embedding of the upgrade-test repository (AlaudaDevops/upgrade-test)
for checking its natural-language specification.

The embedding covers:
* `pkg/git/git.go` — `sanitizePath`;
* `cmd/upgrade_command.go` — the `Execute` per-path loop and the test-command
  resolution inside `process`;
* `pkg/operator/operatorhub` — `deleteResource`, `createSubscription` (with
  its 3-attempt backoff loop), `InstallSubscription`, `createArtifactVersion`
  and `UpgradeOperator`.

Cluster API calls are modelled by oracles: a delete call is an
`Option APIErr` (`none` = success), a get is `Except APIErr α`, and polling
loops consume an oracle indexed by the poll iteration, bounded by a
`maxPolls : Nat` fuel that stands for `timeout / interval`.
-/

namespace UpgradeTest

/-- Kubernetes API errors as discriminated by the Go code via
`errors.IsNotFound` / `errors.IsAlreadyExists`; everything else is `other`. -/
inductive APIErr where
  | notFound (msg : String)
  | alreadyExists (msg : String)
  | other (msg : String)
  deriving Repr, DecidableEq

def APIErr.msg : APIErr → String
  | .notFound m => m
  | .alreadyExists m => m
  | .other m => m

/-- `errors.IsNotFound`. -/
def APIErr.isNotFound : APIErr → Bool
  | .notFound _ => true
  | _ => false

/-- `errors.IsAlreadyExists`. -/
def APIErr.isAlreadyExists : APIErr → Bool
  | .alreadyExists _ => true
  | _ => false

/-- A get result whose error is a not-found error. -/
def isNotFoundE (r : Except APIErr Unit) : Bool :=
  match r with
  | .error e => e.isNotFound
  | .ok _ => false

/-! ## Configuration model (`pkg/config`)

The current `pkg/config` source is not under `src/` (only an earlier snapshot
is); the fields below are exactly those read by the code that is under
`src/`: `cmd/upgrade_command.go` and `pkg/operator/operatorhub/operator.go`,
matching the spec's §3 data model. -/

/-- One version step of an upgrade path (`config.Version`). -/
structure Version where
  name : String
  bundleVersion : String
  channel : String
  testCommand : String
  testSubPath : String
  deriving Repr, DecidableEq

/-- One upgrade path (`config.UpgradePath`). -/
structure UpgradePath where
  name : String
  versions : List Version
  deriving Repr, DecidableEq

/-! ## `sanitizePath` (pkg/git/git.go)

Strings are embedded as `List Char` (Go `strings.Map` iterates runes).
`os.PathSeparator` is `'/'` on the build target (linux, per the Dockerfile).
-/

/-- The character class kept by the `strings.Map` callback in `sanitizePath`:
alphanumerics, underscore and dot.  (The surrounding comment in the source
also names the hyphen, but the code has no `r == '-'` arm.) -/
def allowedRune (r : Char) : Bool :=
  ('0' ≤ r && r ≤ '9') || ('A' ≤ r && r ≤ 'Z') || ('a' ≤ r && r ≤ 'z') ||
    r == '_' || r == '.'

/-- The `strings.Map` callback: keep allowed runes, map the rest to `'_'`. -/
def mapRune (r : Char) : Char :=
  if allowedRune r then r else '_'

/-- `regexp.MustCompile("_+").ReplaceAllString(part, "_")`: collapse each
maximal run of underscores to a single underscore. -/
def collapseUnderscores : List Char → List Char
  | [] => []
  | [c] => [c]
  | a :: b :: t =>
      if a == '_' && b == '_' then collapseUnderscores (b :: t)
      else a :: collapseUnderscores (b :: t)

/-- Per-part sanitisation: map runes, then collapse underscore runs. -/
def sanitizePart (p : List Char) : List Char :=
  collapseUnderscores (p.map mapRune)

/-- `strings.Split` on a single separator character, returning the first part
and the remaining parts (`strings.Split("", sep) = [""]`). -/
def splitParts (sep : Char) : List Char → List Char × List (List Char)
  | [] => ([], [])
  | c :: t =>
      let r := splitParts sep t
      if c == sep then ([], r.1 :: r.2) else (c :: r.1, r.2)

/-- `strings.Split(path, sep)` as a nonempty list of parts. -/
def splitOnSep (sep : Char) (l : List Char) : List (List Char) :=
  (splitParts sep l).1 :: (splitParts sep l).2

/-- `strings.Join(parts, sep)`. -/
def joinSep (sep : Char) : List (List Char) → List Char
  | [] => []
  | [p] => p
  | p :: ps => p ++ sep :: joinSep sep ps

/-- `sanitizePath` from pkg/git/git.go: split on the path separator,
sanitise each part, join back. -/
def sanitizePath (l : List Char) : List Char :=
  joinSep '/' ((splitOnSep '/' l).map sanitizePart)

/-- `sanitizePath` lifted to `String`. -/
def sanitizePathStr (s : String) : String :=
  String.mk (sanitizePath s.data)

/-- The character set `[0-9A-Za-z_.-]` named by the spec's claim about
`sanitizePath` output. -/
def specAllowed (r : Char) : Bool :=
  ('0' ≤ r && r ≤ '9') || ('A' ≤ r && r ≤ 'Z') || ('a' ≤ r && r ≤ 'z') ||
    r == '_' || r == '.' || r == '-'

/-- No two consecutive underscores occur in the list. -/
def noDoubleUnderscore : List Char → Bool
  | a :: b :: t => !(a == '_' && b == '_') && noDoubleUnderscore (b :: t)
  | _ => true

/-! ## `cmd/upgrade_command.go` -/

/-- The test-command resolution inside `UpgradeCommand.process` (lines
197–204): start from the "upgrade" default, switch to "prepare" at index 0,
then let a non-empty explicit `TestCommand` override. -/
def testCommandFor (index : Nat) (version : Version) : String :=
  let t0 := "REPO=allure make upgrade"
  let t1 := if index == 0 then "REPO=allure make prepare" else t0
  if version.testCommand ≠ "" then version.testCommand else t1

/-- The per-path loop of `UpgradeCommand.Execute` (lines 119–129).
`process` is the per-path outcome oracle (`uc.process`), `immediate` is
`cfg.Immediate`.  Returns the command's returned error value together with
the list of paths actually processed. -/
def runPaths (process : UpgradePath → Except String Unit) (immediate : Bool) :
    List UpgradePath → Except String Unit × List UpgradePath
  | [] => (.ok (), [])
  | p :: rest =>
      match process p with
      | .ok _ =>
          let r := runPaths process immediate rest
          (r.1, p :: r.2)
      | .error e =>
          if immediate then
            (.error ("failed to process upgrade path: " ++ p.name ++ ", error: " ++ e), [p])
          else
            let r := runPaths process immediate rest
            (r.1, p :: r.2)

/-! ## Operatorhub operator (`pkg/operator/operatorhub`) -/

def systemNamespace : String := "cpaas-system"

/-- The `spec` block of the Subscription literal built in
`createSubscription` (part_008, lines 166–186). -/
structure SubscriptionSpec where
  channel : String
  installPlanApproval : String
  name : String
  source : String
  sourceNamespace : String
  startingCSV : String
  deriving Repr, DecidableEq

/-- The Subscription object built in `createSubscription`. -/
structure SubscriptionObj where
  name : String
  ns : String
  labelsCatalog : String
  spec : SubscriptionSpec
  deriving Repr, DecidableEq

/-- The unstructured Subscription literal of `createSubscription`. -/
def buildSubscription (name ns csv channel : String) : SubscriptionObj :=
  { name := name
    ns := ns
    labelsCatalog := "platform"
    spec :=
      { channel := channel
        installPlanApproval := "Manual"
        name := name
        source := "platform"
        sourceNamespace := systemNamespace
        startingCSV := csv } }

/-- Backoff before the next attempt after attempt `attempt` failed:
`time.Duration(1<<uint(attempt-1)) * time.Second`, in seconds. -/
def backoffSeconds (attempt : Nat) : Nat := 2 ^ (attempt - 1)

/-- The retry loop of `createSubscription` (part_008, lines 188–209):
`for attempt := 1; attempt <= 3; attempt++`.  `createErr attempt` is the
outcome of the `Create` call on that attempt (`none` = success).  Returns
the result, the list of sleeps performed (seconds), and the number of
create calls issued. -/
def createRetryLoop (createErr : Nat → Option APIErr) (sub : SubscriptionObj)
    (attempt : Nat) : Except String SubscriptionObj × List Nat × Nat :=
  match createErr attempt with
  | none => (.ok sub, [], 1)
  | some e =>
      if h : attempt < 3 then
        let r := createRetryLoop createErr sub (attempt + 1)
        (r.1, backoffSeconds attempt :: r.2.1, r.2.2 + 1)
      else
        (.error ("failed to create subscription after 3 attempts: " ++ e.msg), [], 1)
  termination_by 3 - attempt
  decreasing_by omega

/-- `Operator.createSubscription` (part_008, lines 150–210): create the
namespace (tolerating already-exists), then run the 3-attempt creation
loop on the built Subscription literal. -/
def createSubscription (nsErr : Option APIErr) (createErr : Nat → Option APIErr)
    (name ns csv channel : String) : Except String SubscriptionObj × List Nat × Nat :=
  match nsErr with
  | some e =>
      if e.isAlreadyExists then
        createRetryLoop createErr (buildSubscription name ns csv channel) 1
      else
        (.error ("failed to create namespace: " ++ e.msg), [], 0)
  | none => createRetryLoop createErr (buildSubscription name ns csv channel) 1

/-- The poll body of `deleteResource`: get the resource at successive poll
iterations until a get returns not-found (`ok i` = confirmed gone at
iteration `i`); a get error other than not-found aborts the poll; running
out of fuel is the `wait` package's timeout. -/
def pollGoneAux (gets : Nat → Except APIErr Unit) : Nat → Nat → Except String Nat
  | _, 0 => .error "context deadline exceeded"
  | i, fuel + 1 =>
      match gets i with
      | .error e => if e.isNotFound then .ok i else .error e.msg
      | .ok _ => pollGoneAux gets (i + 1) fuel

/-- `wait.PollUntilContextTimeout` as used in `deleteResource`, starting at
iteration 0 with `maxPolls` iterations of fuel. -/
def pollGone (gets : Nat → Except APIErr Unit) (maxPolls : Nat) : Except String Nat :=
  pollGoneAux gets 0 maxPolls

/-- `Operator.deleteResource` (part_008, lines 120–148): delete tolerating
not-found, then poll until a get confirms the resource is gone.  `ok i`
records the poll iteration at which absence was confirmed. -/
def deleteResource (name : String) (delErr : Option APIErr)
    (gets : Nat → Except APIErr Unit) (maxPolls : Nat) : Except String Nat :=
  match delErr with
  | some e =>
      if e.isNotFound then
        match pollGone gets maxPolls with
        | .ok i => .ok i
        | .error e2 => .error ("failed to delete resource " ++ name ++ ": " ++ e2)
      else .error ("failed to delete resource " ++ name ++ ": " ++ e.msg)
  | none =>
      match pollGone gets maxPolls with
      | .ok i => .ok i
      | .error e2 => .error ("failed to delete resource " ++ name ++ ": " ++ e2)

/-- The poll body of `waitInstallPlan` (part_008, lines 213–253): get the
Subscription (`gets i` yields the optional `status.installplan.name` field);
not-found means a nil object, "not yet"; another get error aborts; a
non-empty name finishes. -/
def waitInstallPlanAux (gets : Nat → Except APIErr (Option String)) :
    Nat → Nat → Except String String
  | _, 0 => .error "context deadline exceeded"
  | i, fuel + 1 =>
      match gets i with
      | .error e => if e.isNotFound then waitInstallPlanAux gets (i + 1) fuel else .error e.msg
      | .ok (some s) => if s ≠ "" then .ok s else waitInstallPlanAux gets (i + 1) fuel
      | .ok none => waitInstallPlanAux gets (i + 1) fuel

/-- `Operator.waitInstallPlan`: any poll failure is reported as the timeout
message (the Go code wraps every poll error this way). -/
def waitInstallPlan (name : String) (gets : Nat → Except APIErr (Option String))
    (maxPolls : Nat) : Except String String :=
  match waitInstallPlanAux gets 0 maxPolls with
  | .ok s => .ok s
  | .error _ => .error ("timeout waiting for subscription " ++ name ++ " to have install plan")

/-- The poll body of `waitCSVReady` (part_008, lines 255–279): `gets i`
yields the optional `status.phase`; not-found is "not yet"; phase
`Succeeded` finishes. -/
def waitCSVAux (gets : Nat → Except APIErr (Option String)) :
    Nat → Nat → Except String Unit
  | _, 0 => .error "context deadline exceeded"
  | i, fuel + 1 =>
      match gets i with
      | .error e => if e.isNotFound then waitCSVAux gets (i + 1) fuel else .error e.msg
      | .ok (some p) => if p == "Succeeded" then .ok () else waitCSVAux gets (i + 1) fuel
      | .ok none => waitCSVAux gets (i + 1) fuel

/-- `Operator.waitCSVReady`. -/
def waitCSVReady (name : String) (gets : Nat → Except APIErr (Option String))
    (maxPolls : Nat) : Except String Unit :=
  match waitCSVAux gets 0 maxPolls with
  | .ok _ => .ok ()
  | .error e => .error ("timeout waiting for csv " ++ name ++ " to be ready, error: " ++ e)

/-- The install plan object as far as `InstallSubscription` reads it. -/
structure InstallPlanObj where
  name : String
  approved : Bool
  deriving Repr, DecidableEq

/-- Resource kinds touched by `InstallSubscription`. -/
inductive GVRKind where
  | subscriptions
  | clusterserviceversions
  | installplans
  | namespaces
  deriving Repr, DecidableEq

/-- Observable milestones of one `InstallSubscription` run, in program
order.  `confirmedGone kind name i` records that deletion of the named
resource was confirmed by a not-found get at poll iteration `i`;
`subCreateCall calls sub` records that the Subscription create call was
issued (`calls` times) with literal `sub`. -/
inductive Event where
  | confirmedGone (kind : GVRKind) (name : String) (pollIdx : Nat)
  | subCreateCall (calls : Nat) (sub : SubscriptionObj)
  | planApproved (name : String)
  | csvReady (name : String)
  deriving Repr, DecidableEq

/-- Oracle bundle for one `InstallSubscription` run: the outcome of each
cluster call it may issue, with polled gets indexed by poll iteration. -/
structure SubWorld where
  subDelErr : Option APIErr
  subGets : Nat → Except APIErr Unit
  csvDelErr : Option APIErr
  csvGets : Nat → Except APIErr Unit
  nsErr : Option APIErr
  subCreateErr : Nat → Option APIErr
  planGets : Nat → Except APIErr (Option String)
  getPlan : String → Except APIErr InstallPlanObj
  planUpdErr : Option APIErr
  csvPhaseGets : Nat → Except APIErr (Option String)

/-- The part of `Operator.InstallSubscription` after both deletions
succeeded: create the new Subscription (namespace ensured, 3-attempt
loop), wait for the install plan, approve it, wait for the CSV.  The
trace records the create call (when at least one was issued) and the
later milestones. -/
def installSubscriptionTail (w : SubWorld) (name ns csv channel : String)
    (maxPolls : Nat) : Except String Unit × List Event :=
  let c := createSubscription w.nsErr w.subCreateErr name ns csv channel
  let tr2 : List Event :=
    if 0 < c.2.2 then
      [Event.subCreateCall c.2.2 (buildSubscription name ns csv channel)]
    else []
  match c.1 with
  | .error e => (.error ("failed to create subscription: " ++ e), tr2)
  | .ok _ =>
      match waitInstallPlan name w.planGets maxPolls with
      | .error e => (.error ("failed to wait for install plan: " ++ e), tr2)
      | .ok planName =>
          match w.getPlan planName with
          | .error e => (.error ("failed to get install plan: " ++ e.msg), tr2)
          | .ok _ =>
              match w.planUpdErr with
              | some e => (.error ("failed to update install plan: " ++ e.msg), tr2)
              | none =>
                  match waitCSVReady csv w.csvPhaseGets maxPolls with
                  | .error e =>
                      (.error ("failed to wait for csv to be ready: " ++ e),
                        tr2 ++ [Event.planApproved planName])
                  | .ok _ =>
                      (.ok (),
                        tr2 ++ [Event.planApproved planName, Event.csvReady csv])

/-- `Operator.InstallSubscription` (part_008, lines 70–118): guard against
empty csv, delete the old Subscription and CSV (each confirmed gone),
then run the creation-and-wait tail.  Returns the result and the trace of
milestones reached. -/
def InstallSubscription (w : SubWorld) (name ns csv channel : String)
    (maxPolls : Nat) : Except String Unit × List Event :=
  if csv == "" then (.error "csv is empty", [])
  else
    match deleteResource name w.subDelErr w.subGets maxPolls with
    | .error e => (.error ("failed to delete old subscription: " ++ e), [])
    | .ok i =>
        match deleteResource csv w.csvDelErr w.csvGets maxPolls with
        | .error e =>
            (.error ("failed to delete old csv: " ++ e),
              [.confirmedGone .subscriptions name i])
        | .ok j =>
            let t := installSubscriptionTail w name ns csv channel maxPolls
            (t.1,
              Event.confirmedGone .subscriptions name i ::
                Event.confirmedGone .clusterserviceversions csv j :: t.2)

/-- A concrete oracle bundle in which both old resources are already
absent and every later call succeeds at once. -/
def exampleWorld : SubWorld :=
  { subDelErr := some (.notFound "nf")
    subGets := fun _ => .error (.notFound "nf")
    csvDelErr := none
    csvGets := fun _ => .error (.notFound "nf")
    nsErr := none
    subCreateErr := fun _ => none
    planGets := fun _ => .ok (some "install-plan-1")
    getPlan := fun n => .ok ⟨n, false⟩
    planUpdErr := none
    csvPhaseGets := fun _ => .ok (some "Succeeded") }

/-! ## `createArtifactVersion` (pkg/operator/operatorhub/artifact_versiong.go) -/

/-- The Artifact (bundle descriptor) fields read by `createArtifactVersion`. -/
structure ArtifactObj where
  name : String
  apiVersion : String
  kind : String
  uid : String
  deriving Repr, DecidableEq

/-- An owner reference as set by `av.SetOwnerReferences`. -/
structure OwnerRef where
  apiVersion : String
  kind : String
  name : String
  uid : String
  deriving Repr, DecidableEq

/-- The ArtifactVersion object as built by `createArtifactVersion`. -/
structure ArtifactVersionObj where
  name : String
  ns : String
  labelArtifactVersion : String
  labelLibrary : String
  specPresent : Bool
  specTag : String
  ownerRefs : List OwnerRef
  deriving Repr, DecidableEq

/-- Cluster calls `createArtifactVersion` may issue. -/
inductive AVCall where
  | get (name : String)
  | create (name : String)
  | delete (name : String)
  deriving Repr, DecidableEq

/-- The ArtifactVersion literal of `createArtifactVersion` (lines 58–87). -/
def buildArtifactVersion (avName version : String) (artifact : ArtifactObj) :
    ArtifactVersionObj :=
  { name := avName
    ns := systemNamespace
    labelArtifactVersion := artifact.name
    labelLibrary := "platform"
    specPresent := true
    specTag := version
    ownerRefs :=
      [{ apiVersion := artifact.apiVersion
         kind := artifact.kind
         name := artifact.name
         uid := artifact.uid }] }

/-- `Operator.createArtifactVersion` (lines 51–90): compute the name as
`artifact.GetName() + "." + version`; if the get succeeds, return the
existing object; otherwise build the literal and create it.  Returns the
result together with the calls issued. -/
def createArtifactVersion (getRes : Except APIErr ArtifactVersionObj)
    (createRes : ArtifactVersionObj → Except APIErr ArtifactVersionObj)
    (version : String) (artifact : ArtifactObj) :
    Except APIErr ArtifactVersionObj × List AVCall :=
  let avName := artifact.name ++ "." ++ version
  match getRes with
  | .ok av => (.ok av, [.get avName])
  | .error _ =>
      let av := buildArtifactVersion avName version artifact
      (createRes av, [.get avName, .create avName])

/-! ## `UpgradeOperator` (pkg/operator/operatorhub/operator.go, lines 98–116) -/

/-- `Operator.UpgradeOperator`: install the artifact version (`iav` is the
outcome of `InstallArtifactVersion`, carrying the optional `status.version`
string of the returned ArtifactVersion), extract the csv (empty when the
field is absent), default the channel to "stable" when the version's
channel is empty, and install the subscription. -/
def UpgradeOperator (iav : Except String (Option String)) (w : SubWorld)
    (name ns : String) (version : Version) (maxPolls : Nat) :
    Except String Unit × List Event :=
  match iav with
  | .error e => (.error ("failed to prepare operator: " ++ e), [])
  | .ok st =>
      let csv := st.getD ""
      let channel := if version.channel == "" then "stable" else version.channel
      let r := InstallSubscription w name ns csv channel maxPolls
      match r.1 with
      | .error e => (.error ("failed to install subscription: " ++ e), r.2)
      | .ok _ => (.ok (), r.2)

/-! ## Theorems -/

/-- Helper: under `immediate = false`, the per-path loop of `Execute`
returns `ok` and visits every path, whatever the per-path outcomes. -/
theorem runPaths_false_spec (process : UpgradePath → Except String Unit)
    (paths : List UpgradePath) :
    runPaths process false paths = (.ok (), paths) := by
  induction paths with
  | nil => rfl
  | cons p rest ih =>
      cases h : process p with
      | ok u => simp [runPaths, h, ih]
      | error e => simp [runPaths, h, ih]

/-- Helper: under `immediate = true`, the first failing path aborts the
loop with the wrapped error; only the paths up to and including it are
visited. -/
theorem runPaths_true_abort (process : UpgradePath → Except String Unit)
    (paths : List UpgradePath) (k : Nat) (e : String) (hk : k < paths.length)
    (hfail : process (paths.get ⟨k, hk⟩) = .error e)
    (hok : ∀ j (hj : j < k), process (paths.get ⟨j, by omega⟩) = .ok ()) :
    runPaths process true paths =
      (.error ("failed to process upgrade path: " ++ (paths.get ⟨k, hk⟩).name ++
          ", error: " ++ e),
       paths.take (k + 1)) := by
  induction paths generalizing k with
  | nil => simp at hk
  | cons p rest ih =>
      cases k with
      | zero =>
          simp only [List.get] at hfail
          simp [runPaths, hfail]
      | succ k =>
          have h0 : process p = .ok () := hok 0 (Nat.succ_pos k)
          have hk2 : k < rest.length := by simpa using hk
          have := ih k hk2 (by simpa using hfail)
            (fun j hj => by simpa using hok (j + 1) (by omega))
          simp [runPaths, h0, this]

/-- C3: in the `Execute` loop over upgrade paths, if some path fails and
`Immediate` is true, the run aborts with that error and no later path is
processed; if `Immediate` is false, the run continues through every path. -/
theorem execute_failure_policy (process : UpgradePath → Except String Unit)
    (paths : List UpgradePath) (k : Nat) (e : String) (hk : k < paths.length)
    (hfail : process (paths.get ⟨k, hk⟩) = .error e)
    (hok : ∀ j (hj : j < k), process (paths.get ⟨j, by omega⟩) = .ok ()) :
    runPaths process true paths =
      (.error ("failed to process upgrade path: " ++ (paths.get ⟨k, hk⟩).name ++
          ", error: " ++ e),
       paths.take (k + 1))
    ∧ (runPaths process false paths).2 = paths := by
  refine ⟨runPaths_true_abort process paths k e hk hfail hok, ?_⟩
  rw [runPaths_false_spec]

/-- Witness for `execute_failure_policy` at a concrete two-path input whose
second path fails. -/
theorem execute_failure_policy_witness :
    runPaths
        (fun p => if p.name == "p2" then .error "boom" else .ok ())
        true
        [{ name := "p1", versions := [] }, { name := "p2", versions := [] }] =
      (.error "failed to process upgrade path: p2, error: boom",
       [{ name := "p1", versions := [] }, { name := "p2", versions := [] }]) := by
  have h := execute_failure_policy
    (fun p => if p.name == "p2" then .error "boom" else .ok ())
    [{ name := "p1", versions := [] }, { name := "p2", versions := [] }]
    1 "boom" (by decide) rfl
    (fun j hj => by
      have hj0 : j = 0 := by omega
      subst hj0
      rfl)
  simpa using h.1

/-- C4 counterexample: with `Immediate = false` and a single upgrade path
whose processing fails (so the last path attempted failed), `Execute`
returns `nil`, not a non-nil error. -/
theorem execute_ok_after_last_path_failed :
    (runPaths (fun _ => .error "test command failed") false
        [{ name := "p1", versions := [] }]).1 = .ok () := rfl

/-- C4 amended: when `Immediate` is false, `Execute` always returns `nil`
after visiting every path — failed paths are only logged, and a failed
path (including the last one) never makes the process exit non-zero;
a non-nil return for a failed path happens only when `Immediate` is true. -/
theorem execute_continue_mode_returns_ok
    (process : UpgradePath → Except String Unit) (paths : List UpgradePath) :
    runPaths process false paths = (.ok (), paths) :=
  runPaths_false_spec process paths

/-- C8: deleting an absent resource is not an error: when the delete call
itself reports not-found and every poll get reports not-found,
`deleteResource` succeeds, confirming absence at the very first poll
iteration. -/
theorem deleteResource_absent_ok (name : String) (e : APIErr)
    (he : e.isNotFound = true) (gets : Nat → Except APIErr Unit)
    (hg : ∀ i, isNotFoundE (gets i) = true) (maxPolls : Nat)
    (hm : 1 ≤ maxPolls) :
    deleteResource name (some e) gets maxPolls = .ok 0 := by
  obtain ⟨m, rfl⟩ : ∃ m, maxPolls = m + 1 := ⟨maxPolls - 1, by omega⟩
  have h0 := hg 0
  unfold deleteResource pollGone
  cases hg0 : gets 0 with
  | ok u => rw [hg0] at h0; simp [isNotFoundE] at h0
  | error e0 =>
      rw [hg0] at h0
      simp only [isNotFoundE] at h0
      simp [he, pollGoneAux, hg0, h0]

/-- Witness for `deleteResource_absent_ok`: a concrete absent resource. -/
theorem deleteResource_absent_ok_witness :
    deleteResource "old-sub" (some (.notFound "nf"))
      (fun _ => .error (.notFound "nf")) 1 = .ok 0 :=
  deleteResource_absent_ok "old-sub" (.notFound "nf") rfl
    (fun _ => .error (.notFound "nf")) (fun _ => rfl) 1 (by decide)

/-- C7: the resolved test command is the version's explicit `TestCommand`
when non-empty, else the "prepare" default at path index 0 and the
"upgrade" default at later indices. -/
theorem testCommand_resolution (index : Nat) (v : Version) :
    testCommandFor index v =
      if v.testCommand ≠ "" then v.testCommand
      else if index = 0 then "REPO=allure make prepare"
      else "REPO=allure make upgrade" := by
  unfold testCommandFor
  by_cases h : v.testCommand = "" <;> by_cases hi : index = 0 <;> simp [h, hi]

/-- Retry-loop unfolding: a successful create ends the loop at once. -/
theorem createRetryLoop_ok (createErr : Nat → Option APIErr) (sub : SubscriptionObj)
    (attempt : Nat) (h : createErr attempt = none) :
    createRetryLoop createErr sub attempt = (.ok sub, [], 1) := by
  unfold createRetryLoop
  rw [h]

/-- Retry-loop unfolding: a failed non-final attempt sleeps the backoff and
retries. -/
theorem createRetryLoop_retry (createErr : Nat → Option APIErr) (sub : SubscriptionObj)
    (attempt : Nat) (e : APIErr) (h : createErr attempt = some e)
    (ha : attempt < 3) :
    createRetryLoop createErr sub attempt =
      ((createRetryLoop createErr sub (attempt + 1)).1,
       backoffSeconds attempt :: (createRetryLoop createErr sub (attempt + 1)).2.1,
       (createRetryLoop createErr sub (attempt + 1)).2.2 + 1) := by
  conv_lhs => unfold createRetryLoop
  rw [h]
  simp only [dif_pos ha]

/-- Retry-loop unfolding: the third failed attempt returns the wrapped
error without sleeping again. -/
theorem createRetryLoop_giveup (createErr : Nat → Option APIErr) (sub : SubscriptionObj)
    (e : APIErr) (h : createErr 3 = some e) :
    createRetryLoop createErr sub 3 =
      (.error ("failed to create subscription after 3 attempts: " ++ e.msg), [], 1) := by
  unfold createRetryLoop
  rw [h]
  simp

/-- Helper: when the namespace create succeeded or hit already-exists,
`createSubscription` is the retry loop started at attempt 1. -/
theorem createSubscription_reduces (nsErr : Option APIErr)
    (createErr : Nat → Option APIErr) (name ns csv channel : String)
    (hns : nsErr = none ∨ ∃ e, nsErr = some e ∧ e.isAlreadyExists = true) :
    createSubscription nsErr createErr name ns csv channel =
      createRetryLoop createErr (buildSubscription name ns csv channel) 1 := by
  rcases hns with h | ⟨e, he, ha⟩
  · rw [h]; rfl
  · rw [he]; simp [createSubscription, ha]

/-- C1: with the namespace ensured, if the Subscription create call
succeeds on attempt `k ≤ 3` the operation returns the built object with no
error after exactly `k` calls, having slept `1s` before attempt 2 and `2s`
before attempt 3 as reached; if all three attempts fail it makes exactly 3
create calls (never a 4th), sleeps `[1, 2]`, and returns the wrapped
error of the third failure. -/
theorem createSubscription_retry (nsErr : Option APIErr)
    (createErr : Nat → Option APIErr) (name ns csv channel : String)
    (hns : nsErr = none ∨ ∃ e, nsErr = some e ∧ e.isAlreadyExists = true) :
    (∀ k, 1 ≤ k → k ≤ 3 → createErr k = none →
        (∀ j, 1 ≤ j → j < k → createErr j ≠ none) →
        createSubscription nsErr createErr name ns csv channel =
          (.ok (buildSubscription name ns csv channel),
           (List.range (k - 1)).map (fun i => 2 ^ i), k))
    ∧ ((∀ j, 1 ≤ j → j ≤ 3 → createErr j ≠ none) →
        (createSubscription nsErr createErr name ns csv channel).2.2 = 3
        ∧ (createSubscription nsErr createErr name ns csv channel).2.1 = [1, 2]
        ∧ ∀ e, createErr 3 = some e →
            (createSubscription nsErr createErr name ns csv channel).1 =
              .error ("failed to create subscription after 3 attempts: " ++ e.msg)) := by
  rw [createSubscription_reduces nsErr createErr name ns csv channel hns]
  set sub := buildSubscription name ns csv channel with hsub
  constructor
  · intro k hk1 hk3 hkok hprev
    interval_cases k
    · rw [createRetryLoop_ok createErr sub 1 hkok]
      rfl
    · obtain ⟨e1, he1⟩ : ∃ e, createErr 1 = some e := by
        cases h : createErr 1 with
        | none => exact absurd h (hprev 1 (by omega) (by omega))
        | some e => exact ⟨e, rfl⟩
      rw [createRetryLoop_retry createErr sub 1 e1 he1 (by omega),
        createRetryLoop_ok createErr sub 2 hkok]
      rfl
    · obtain ⟨e1, he1⟩ : ∃ e, createErr 1 = some e := by
        cases h : createErr 1 with
        | none => exact absurd h (hprev 1 (by omega) (by omega))
        | some e => exact ⟨e, rfl⟩
      obtain ⟨e2, he2⟩ : ∃ e, createErr 2 = some e := by
        cases h : createErr 2 with
        | none => exact absurd h (hprev 2 (by omega) (by omega))
        | some e => exact ⟨e, rfl⟩
      rw [createRetryLoop_retry createErr sub 1 e1 he1 (by omega),
        createRetryLoop_retry createErr sub 2 e2 he2 (by omega),
        createRetryLoop_ok createErr sub 3 hkok]
      rfl
  · intro hall
    obtain ⟨e1, he1⟩ : ∃ e, createErr 1 = some e := by
      cases h : createErr 1 with
      | none => exact absurd h (hall 1 (by omega) (by omega))
      | some e => exact ⟨e, rfl⟩
    obtain ⟨e2, he2⟩ : ∃ e, createErr 2 = some e := by
      cases h : createErr 2 with
      | none => exact absurd h (hall 2 (by omega) (by omega))
      | some e => exact ⟨e, rfl⟩
    obtain ⟨e3, he3⟩ : ∃ e, createErr 3 = some e := by
      cases h : createErr 3 with
      | none => exact absurd h (hall 3 (by omega) (by omega))
      | some e => exact ⟨e, rfl⟩
    rw [createRetryLoop_retry createErr sub 1 e1 he1 (by omega),
      createRetryLoop_retry createErr sub 2 e2 he2 (by omega),
      createRetryLoop_giveup createErr sub e3 he3]
    refine ⟨rfl, rfl, fun e he => ?_⟩
    rw [he3] at he
    cases he
    rfl

/-- Witness for `createSubscription_retry`: failures on attempts 1 and 2,
success on attempt 3. -/
theorem createSubscription_retry_witness :
    createSubscription none (fun n => if n < 3 then some (.other "conflict") else none)
        "op" "ns" "csv-1" "stable" =
      (.ok (buildSubscription "op" "ns" "csv-1" "stable"), [1, 2], 3) := by
  have h := (createSubscription_retry none
    (fun n => if n < 3 then some (.other "conflict") else none)
    "op" "ns" "csv-1" "stable" (Or.inl rfl)).1 3 (by omega) (by omega)
    rfl
    (fun j hj1 hj3 => by
      have : j = 1 ∨ j = 2 := by omega
      rcases this with h | h <;> subst h <;> exact fun hc => by simp at hc)
  simpa using h

/-- C9: `createArtifactVersion` addresses only the name
`artifact.name ++ "." ++ version` (deterministically computed), never
issues a delete, and when the get finds an existing resource it returns
that resource unchanged with no create call. -/
theorem createArtifactVersion_reuses_existing
    (getRes : Except APIErr ArtifactVersionObj)
    (createRes : ArtifactVersionObj → Except APIErr ArtifactVersionObj)
    (version : String) (artifact : ArtifactObj) :
    (∀ c ∈ (createArtifactVersion getRes createRes version artifact).2,
        c = AVCall.get (artifact.name ++ "." ++ version) ∨
        c = AVCall.create (artifact.name ++ "." ++ version))
    ∧ (∀ n, AVCall.delete n ∉ (createArtifactVersion getRes createRes version artifact).2)
    ∧ (∀ av, getRes = .ok av →
        createArtifactVersion getRes createRes version artifact =
          (.ok av, [AVCall.get (artifact.name ++ "." ++ version)])) := by
  unfold createArtifactVersion
  cases getRes with
  | ok av =>
      refine ⟨?_, ?_, ?_⟩
      · intro c hc
        simp at hc
        exact Or.inl hc
      · intro n
        simp
      · intro av2 h
        cases h
        rfl
  | error e =>
      refine ⟨?_, ?_, ?_⟩
      · intro c hc
        simp at hc
        rcases hc with h | h <;> simp [h]
      · intro n
        simp
      · intro av2 h
        cases h

/-- Witness for `createArtifactVersion_reuses_existing`: the resource
already exists, so it is returned as-is after a single get. -/
theorem createArtifactVersion_reuses_existing_witness :
    createArtifactVersion
        (.ok (buildArtifactVersion "gitlab.v17.8.10" "v17.8.10"
          ⟨"gitlab", "app.alauda.io/v1alpha1", "Artifact", "uid-1"⟩))
        (fun av => .ok av) "v17.8.10"
        ⟨"gitlab", "app.alauda.io/v1alpha1", "Artifact", "uid-1"⟩ =
      (.ok (buildArtifactVersion "gitlab.v17.8.10" "v17.8.10"
          ⟨"gitlab", "app.alauda.io/v1alpha1", "Artifact", "uid-1"⟩),
       [AVCall.get ("gitlab" ++ "." ++ "v17.8.10")]) :=
  (createArtifactVersion_reuses_existing
      (.ok (buildArtifactVersion "gitlab.v17.8.10" "v17.8.10"
        ⟨"gitlab", "app.alauda.io/v1alpha1", "Artifact", "uid-1"⟩))
      (fun av => .ok av) "v17.8.10"
      ⟨"gitlab", "app.alauda.io/v1alpha1", "Artifact", "uid-1"⟩).2.2
    (buildArtifactVersion "gitlab.v17.8.10" "v17.8.10"
      ⟨"gitlab", "app.alauda.io/v1alpha1", "Artifact", "uid-1"⟩) rfl

/-- Helper: a successful bounded poll confirms a not-found get within the
fuel window. -/
theorem pollGoneAux_ok_spec (gets : Nat → Except APIErr Unit) :
    ∀ fuel s i, pollGoneAux gets s fuel = .ok i →
      s ≤ i ∧ i < s + fuel ∧ isNotFoundE (gets i) = true := by
  intro fuel
  induction fuel with
  | zero => intro s i h; simp [pollGoneAux] at h
  | succ n ih =>
      intro s i h
      unfold pollGoneAux at h
      cases hg : gets s with
      | error e =>
          rw [hg] at h
          by_cases hnf : e.isNotFound = true
          · simp [hnf] at h
            subst h
            exact ⟨Nat.le_refl s, by omega, by simp [isNotFoundE, hg, hnf]⟩
          · simp [hnf] at h
      | ok u =>
          rw [hg] at h
          have := ih (s + 1) i h
          exact ⟨by omega, by omega, this.2.2⟩

/-- Helper: a successful `deleteResource` confirmed absence by a not-found
get at a poll iteration within the bound. -/
theorem deleteResource_ok_spec (name : String) (delErr : Option APIErr)
    (gets : Nat → Except APIErr Unit) (maxPolls i : Nat)
    (h : deleteResource name delErr gets maxPolls = .ok i) :
    i < maxPolls ∧ isNotFoundE (gets i) = true := by
  unfold deleteResource at h
  have poll : pollGone gets maxPolls = .ok i → i < maxPolls ∧ isNotFoundE (gets i) = true := by
    intro hp
    have := pollGoneAux_ok_spec gets maxPolls 0 i hp
    exact ⟨by omega, this.2.2⟩
  cases delErr with
  | none =>
      cases hp : pollGone gets maxPolls with
      | ok j => simp only [hp] at h; cases h; exact poll hp
      | error e2 => simp only [hp] at h; cases h
  | some e =>
      by_cases hnf : e.isNotFound = true
      · simp only [hnf, if_true] at h
        cases hp : pollGone gets maxPolls with
        | ok j => simp only [hp] at h; cases h; exact poll hp
        | error e2 => simp only [hp] at h; cases h
      · simp [hnf] at h

/-- Helper: in a list starting with `a` and `b`, any decomposition around a
third element `e` puts `a` and `b` in the left part. -/
theorem head2_mem_append {α : Type _} (a b e : α) (rest t1 t2 : List α)
    (h : a :: b :: rest = t1 ++ e :: t2) (hea : e ≠ a) (heb : e ≠ b) :
    a ∈ t1 ∧ b ∈ t1 := by
  cases t1 with
  | nil =>
      simp only [List.nil_append, List.cons.injEq] at h
      exact absurd h.1.symm hea
  | cons x t1a =>
      cases t1a with
      | nil =>
          simp only [List.cons_append, List.nil_append, List.cons.injEq] at h
          exact absurd h.2.1.symm heb
      | cons y t1b =>
          simp only [List.cons_append, List.cons.injEq] at h
          refine ⟨?_, ?_⟩
          · rw [h.1]; exact List.mem_cons_self x _
          · rw [h.2.1]; exact List.mem_cons_of_mem _ (List.mem_cons_self y _)

/-- Helper: the trace of `InstallSubscription` is empty, a single
confirmed-gone event, or starts with the two confirmed-gone events of the
old Subscription and CSV, whose `deleteResource` calls succeeded. -/
theorem installSubscription_trace_shape (w : SubWorld)
    (name ns csv channel : String) (maxPolls : Nat) :
    (InstallSubscription w name ns csv channel maxPolls).2 = []
    ∨ (∃ i, deleteResource name w.subDelErr w.subGets maxPolls = .ok i ∧
        (InstallSubscription w name ns csv channel maxPolls).2 =
          [Event.confirmedGone .subscriptions name i])
    ∨ (∃ i j,
        deleteResource name w.subDelErr w.subGets maxPolls = .ok i ∧
        deleteResource csv w.csvDelErr w.csvGets maxPolls = .ok j ∧
        (InstallSubscription w name ns csv channel maxPolls).2 =
          Event.confirmedGone .subscriptions name i ::
            Event.confirmedGone .clusterserviceversions csv j ::
              (installSubscriptionTail w name ns csv channel maxPolls).2) := by
  unfold InstallSubscription
  by_cases hcsv : (csv == "") = true
  · rw [if_pos hcsv]
    exact Or.inl rfl
  · rw [if_neg hcsv]
    cases hds : deleteResource name w.subDelErr w.subGets maxPolls with
    | error e => exact Or.inl rfl
    | ok i =>
        cases hdc : deleteResource csv w.csvDelErr w.csvGets maxPolls with
        | error e => exact Or.inr (Or.inl ⟨i, rfl, rfl⟩)
        | ok j => exact Or.inr (Or.inr ⟨i, j, rfl, rfl, rfl⟩)

/-- C2: in every `InstallSubscription` run whose trace contains the
Subscription create call, the old Subscription (named after the operator)
and the old CSV were each confirmed deleted — a get returned not-found at
some poll iteration within the polling bound — strictly before the create
call was issued. -/
theorem installSubscription_deletes_confirmed_before_create
    (w : SubWorld) (name ns csv channel : String) (maxPolls : Nat)
    (t1 t2 : List Event) (n : Nat) (sub : SubscriptionObj)
    (hdec : (InstallSubscription w name ns csv channel maxPolls).2 =
      t1 ++ Event.subCreateCall n sub :: t2) :
    (∃ i, i < maxPolls ∧ isNotFoundE (w.subGets i) = true ∧
        Event.confirmedGone .subscriptions name i ∈ t1)
    ∧ (∃ j, j < maxPolls ∧ isNotFoundE (w.csvGets j) = true ∧
        Event.confirmedGone .clusterserviceversions csv j ∈ t1) := by
  rcases installSubscription_trace_shape w name ns csv channel maxPolls with
    h | ⟨i, hi, h⟩ | ⟨i, j, hi, hj, h⟩
  · rw [h] at hdec
    exact absurd hdec.symm (List.append_ne_nil_of_right_ne_nil t1 (by simp))
  · rw [h] at hdec
    cases t1 with
    | nil => simp at hdec
    | cons x t1a => simp at hdec
  · rw [h] at hdec
    obtain ⟨h1, h2⟩ := head2_mem_append _ _ _ _ _ _ hdec (by simp) (by simp)
    have d1 := deleteResource_ok_spec name w.subDelErr w.subGets maxPolls i hi
    have d2 := deleteResource_ok_spec csv w.csvDelErr w.csvGets maxPolls j hj
    exact ⟨⟨i, d1.1, d1.2, h1⟩, ⟨j, d2.1, d2.2, h2⟩⟩

/-- Witness for `installSubscription_deletes_confirmed_before_create` on
the concrete `exampleWorld` run, whose trace does reach the create call. -/
theorem installSubscription_deletes_confirmed_before_create_witness :
    (∃ i, i < 1 ∧ isNotFoundE (exampleWorld.subGets i) = true ∧
        Event.confirmedGone .subscriptions "op" i ∈
          [Event.confirmedGone .subscriptions "op" 0,
           Event.confirmedGone .clusterserviceversions "csv-1" 0])
    ∧ (∃ j, j < 1 ∧ isNotFoundE (exampleWorld.csvGets j) = true ∧
        Event.confirmedGone .clusterserviceversions "csv-1" j ∈
          [Event.confirmedGone .subscriptions "op" 0,
           Event.confirmedGone .clusterserviceversions "csv-1" 0]) :=
  installSubscription_deletes_confirmed_before_create exampleWorld
    "op" "ns" "csv-1" "stable" 1
    [Event.confirmedGone .subscriptions "op" 0,
     Event.confirmedGone .clusterserviceversions "csv-1" 0]
    [Event.planApproved "install-plan-1", Event.csvReady "csv-1"]
    1 (buildSubscription "op" "ns" "csv-1" "stable")
    (by
      have hc : createSubscription none (fun _ => none) "op" "ns" "csv-1" "stable" =
          (.ok (buildSubscription "op" "ns" "csv-1" "stable"), [], 1) := by
        rw [createSubscription_reduces none (fun _ => none) "op" "ns" "csv-1" "stable"
          (Or.inl rfl)]
        exact createRetryLoop_ok (fun _ => none)
          (buildSubscription "op" "ns" "csv-1" "stable") 1 rfl
      simp [InstallSubscription, installSubscriptionTail, hc, deleteResource,
        pollGone, pollGoneAux, waitInstallPlan, waitInstallPlanAux, waitCSVReady,
        waitCSVAux, exampleWorld, APIErr.isNotFound])

/-- Helper: every event in the post-deletion tail of `InstallSubscription`
is the create call of the built Subscription literal, a plan approval, or
the CSV-ready milestone. -/
theorem installSubscriptionTail_events (w : SubWorld) (name ns csv channel : String)
    (maxPolls : Nat) :
    ∀ ev ∈ (installSubscriptionTail w name ns csv channel maxPolls).2,
      ev = Event.subCreateCall
            (createSubscription w.nsErr w.subCreateErr name ns csv channel).2.2
            (buildSubscription name ns csv channel)
      ∨ (∃ p, ev = Event.planApproved p) ∨ ev = Event.csvReady csv := by
  intro ev hmem
  simp only [installSubscriptionTail] at hmem
  repeat' split at hmem
  all_goals aesop

/-- Helper: any Subscription literal recorded as created by
`InstallSubscription` is the one built from the passed arguments; in
particular its `spec.channel` is the passed channel. -/
theorem installSubscription_created_literal (w : SubWorld)
    (name ns csv channel : String) (maxPolls : Nat) (n : Nat)
    (sub : SubscriptionObj)
    (hmem : Event.subCreateCall n sub ∈
      (InstallSubscription w name ns csv channel maxPolls).2) :
    sub = buildSubscription name ns csv channel := by
  rcases installSubscription_trace_shape w name ns csv channel maxPolls with
    h | ⟨i, hi, h⟩ | ⟨i, j, hi, hj, h⟩
  · rw [h] at hmem; exact absurd hmem (List.not_mem_nil _)
  · rw [h] at hmem; simp at hmem
  · rw [h, List.mem_cons, List.mem_cons] at hmem
    rcases hmem with hmem | hmem | hmem
    · exact absurd hmem (by simp)
    · exact absurd hmem (by simp)
    · rcases installSubscriptionTail_events w name ns csv channel maxPolls _ hmem with
        hev | ⟨p, hev⟩ | hev
      · cases hev; rfl
      · cases hev
      · cases hev

/-- C10: in every `UpgradeOperator` run, the Subscription literal created
for a version with empty `Channel` carries `spec.channel = "stable"`, and
for a non-empty `Channel` it carries that channel unchanged. -/
theorem upgradeOperator_channel_default (iav : Except String (Option String))
    (w : SubWorld) (name ns : String) (version : Version) (maxPolls : Nat) :
    (version.channel = "" →
      ∀ n sub, Event.subCreateCall n sub ∈
          (UpgradeOperator iav w name ns version maxPolls).2 →
        sub.spec.channel = "stable")
    ∧ (version.channel ≠ "" →
      ∀ n sub, Event.subCreateCall n sub ∈
          (UpgradeOperator iav w name ns version maxPolls).2 →
        sub.spec.channel = version.channel) := by
  cases iav with
  | error e =>
      constructor <;> intro hch n sub hmem <;>
        exact absurd hmem (by simp [UpgradeOperator])
  | ok st =>
      have htr : (UpgradeOperator (.ok st) w name ns version maxPolls).2 =
          (InstallSubscription w name ns (st.getD "")
            (if version.channel == "" then "stable" else version.channel)
            maxPolls).2 := by
        simp only [UpgradeOperator]
        split <;> rfl
      constructor <;> intro hch n sub hmem
      · rw [htr] at hmem
        have hsub := installSubscription_created_literal w name ns (st.getD "")
          (if version.channel == "" then "stable" else version.channel)
          maxPolls n sub hmem
        rw [hsub]
        simp [buildSubscription, hch]
      · rw [htr] at hmem
        have hsub := installSubscription_created_literal w name ns (st.getD "")
          (if version.channel == "" then "stable" else version.channel)
          maxPolls n sub hmem
        rw [hsub]
        simp [buildSubscription, hch]

/-- Witness for `upgradeOperator_channel_default`: a version with empty
channel leads to a created Subscription whose channel is "stable". -/
theorem upgradeOperator_channel_default_witness :
    (buildSubscription "op" "ns" "csv-1" "stable").spec.channel = "stable" :=
  (upgradeOperator_channel_default (.ok (some "csv-1")) exampleWorld "op" "ns"
      { name := "v1", bundleVersion := "v17.8.10", channel := "",
        testCommand := "", testSubPath := "" } 1).1 rfl
    1 (buildSubscription "op" "ns" "csv-1" "stable")
    (by
      have hc : createSubscription none (fun _ => none) "op" "ns" "csv-1" "stable" =
          (.ok (buildSubscription "op" "ns" "csv-1" "stable"), [], 1) := by
        rw [createSubscription_reduces none (fun _ => none) "op" "ns" "csv-1" "stable"
          (Or.inl rfl)]
        exact createRetryLoop_ok (fun _ => none)
          (buildSubscription "op" "ns" "csv-1" "stable") 1 rfl
      simp [UpgradeOperator, InstallSubscription, installSubscriptionTail, hc,
        deleteResource, pollGone, pollGoneAux, waitInstallPlan, waitInstallPlanAux,
        waitCSVReady, waitCSVAux, exampleWorld, APIErr.isNotFound])

/-- Helper: collapsing underscore runs only removes characters. -/
theorem mem_collapseUnderscores : ∀ l (c : Char), c ∈ collapseUnderscores l → c ∈ l := by
  intro l
  induction l with
  | nil => simp [collapseUnderscores]
  | cons a t ih =>
      cases t with
      | nil => simp [collapseUnderscores]
      | cons b t2 =>
          intro c hc
          simp only [collapseUnderscores] at hc
          by_cases hab : (a == '_' && b == '_') = true
          · rw [if_pos hab] at hc
            exact List.mem_cons_of_mem a (ih c hc)
          · rw [if_neg hab] at hc
            rcases List.mem_cons.mp hc with h | h
            · exact h ▸ List.mem_cons_self a _
            · exact List.mem_cons_of_mem a (ih c h)

/-- Helper: collapsing keeps the head character. -/
theorem collapseUnderscores_cons :
    ∀ t (b : Char), ∃ t2, collapseUnderscores (b :: t) = b :: t2 := by
  intro t
  induction t with
  | nil => exact fun b => ⟨[], rfl⟩
  | cons c ta ih =>
      intro b
      by_cases h : (b == '_' && c == '_') = true
      · obtain ⟨hb, hc⟩ : b = '_' ∧ c = '_' := by simpa using h
        subst hb
        subst hc
        obtain ⟨t2, ht⟩ := ih '_'
        refine ⟨t2, ?_⟩
        simp only [collapseUnderscores, if_pos h]
        exact ht
      · exact ⟨collapseUnderscores (c :: ta), by simp only [collapseUnderscores, if_neg h]⟩

/-- Helper: the collapsed list has no two consecutive underscores. -/
theorem noDoubleUnderscore_collapse :
    ∀ l, noDoubleUnderscore (collapseUnderscores l) = true := by
  intro l
  induction l with
  | nil => rfl
  | cons a t ih =>
      cases t with
      | nil => rfl
      | cons b t2 =>
          simp only [collapseUnderscores]
          by_cases hab : (a == '_' && b == '_') = true
          · rw [if_pos hab]
            exact ih
          · rw [if_neg hab]
            obtain ⟨t3, ht⟩ := collapseUnderscores_cons t2 b
            rw [ht]
            rw [ht] at ih
            simp only [noDoubleUnderscore, Bool.and_eq_true]
            exact ⟨by simp [Bool.eq_false_iff.mpr hab], ih⟩

/-- Helper: collapsing is the identity on lists without double underscores. -/
theorem collapseUnderscores_of_noDouble :
    ∀ l, noDoubleUnderscore l = true → collapseUnderscores l = l := by
  intro l
  induction l with
  | nil => intro h; rfl
  | cons a t ih =>
      cases t with
      | nil => intro h; rfl
      | cons b t2 =>
          intro h
          simp only [noDoubleUnderscore, Bool.and_eq_true] at h
          have h1 := h.1
          have hf : (a == '_' && b == '_') = false := by
            cases hv : (a == '_' && b == '_') with
            | false => rfl
            | true => rw [hv] at h1; simp at h1
          simp only [collapseUnderscores]
          rw [if_neg (by simp [hf]), ih h.2]

/-- Helper: the map callback always produces an allowed rune. -/
theorem allowedRune_mapRune (r : Char) : allowedRune (mapRune r) = true := by
  unfold mapRune
  by_cases h : allowedRune r = true
  · rw [if_pos h]; exact h
  · rw [if_neg h]; decide

/-- Helper: every character of a sanitised part is in the allowed class. -/
theorem mem_sanitizePart_allowed (p : List Char) (c : Char)
    (hc : c ∈ sanitizePart p) : allowedRune c = true := by
  have h1 := mem_collapseUnderscores _ c hc
  obtain ⟨x, _, hx⟩ := List.mem_map.mp h1
  rw [← hx]
  exact allowedRune_mapRune x

/-- Helper: characters of a joined list come from a part or are the
separator. -/
theorem mem_joinSep :
    ∀ (parts : List (List Char)) (sep c : Char), c ∈ joinSep sep parts →
      (∃ p ∈ parts, c ∈ p) ∨ c = sep := by
  intro parts
  induction parts with
  | nil => intro sep c hc; simp [joinSep] at hc
  | cons p ps ih =>
      intro sep c hc
      cases ps with
      | nil =>
          exact Or.inl ⟨p, List.mem_cons_self p _, by simpa [joinSep] using hc⟩
      | cons q ps2 =>
          simp only [joinSep, List.mem_append, List.mem_cons] at hc
          rcases hc with h | h | h
          · exact Or.inl ⟨p, List.mem_cons_self p _, h⟩
          · exact Or.inr h
          · rcases ih sep c h with ⟨p2, hp2, hcp⟩ | h2
            · exact Or.inl ⟨p2, List.mem_cons_of_mem p hp2, hcp⟩
            · exact Or.inr h2

/-- Helper: appending `sep :: ys` to a clean `xs` stays free of double
underscores when `sep` is not an underscore. -/
theorem noDoubleUnderscore_append (sep : Char) (hsep : (sep == '_') = false) :
    ∀ xs ys, noDoubleUnderscore xs = true → noDoubleUnderscore ys = true →
      noDoubleUnderscore (xs ++ sep :: ys) = true := by
  intro xs
  induction xs with
  | nil =>
      intro ys _ hys
      cases ys with
      | nil => rfl
      | cons y ys2 =>
          simp only [List.nil_append, noDoubleUnderscore, Bool.and_eq_true]
          exact ⟨by simp [hsep], hys⟩
  | cons a xs2 ih =>
      intro ys hx hys
      cases xs2 with
      | nil =>
          simp only [List.cons_append, List.nil_append, noDoubleUnderscore,
            Bool.and_eq_true]
          refine ⟨by simp [hsep], ?_⟩
          have := ih ys rfl hys
          simpa using this
      | cons b xs3 =>
          simp only [noDoubleUnderscore, Bool.and_eq_true] at hx
          simp only [List.cons_append, noDoubleUnderscore, Bool.and_eq_true]
          refine ⟨hx.1, ?_⟩
          have := ih ys hx.2 hys
          simpa using this

/-- Helper: joining clean parts with a non-underscore separator is clean. -/
theorem noDoubleUnderscore_joinSep (sep : Char) (hsep : (sep == '_') = false) :
    ∀ parts, (∀ p ∈ parts, noDoubleUnderscore p = true) →
      noDoubleUnderscore (joinSep sep parts) = true := by
  intro parts
  induction parts with
  | nil => intro _; rfl
  | cons p ps ih =>
      intro hall
      cases ps with
      | nil => simpa [joinSep] using hall p (List.mem_cons_self p _)
      | cons q ps2 =>
          simp only [joinSep]
          exact noDoubleUnderscore_append sep hsep p _
            (hall p (List.mem_cons_self p _))
            (ih (fun r hr => hall r (List.mem_cons_of_mem p hr)))

/-- C5 counterexample: the output of `sanitizePath` is not confined to
`[0-9A-Za-z_.-]` — the path separator survives (already on the claim's own
input `"release/v17.8!"`) — and the hyphen is not retained but replaced by
an underscore. -/
theorem sanitizePath_spec_set_false :
    sanitizePathStr "release/v17.8!" = "release/v17.8_"
    ∧ sanitizePathStr "a-b" = "a_b"
    ∧ (sanitizePathStr "release/v17.8!").data.all specAllowed = false := by
  refine ⟨rfl, rfl, by decide⟩

/-- C5 amended: every character of `sanitizePath`'s output is an allowed
rune (alphanumeric, underscore or dot — hyphens, like all other disallowed
characters, are replaced by underscore) or the preserved path separator
`'/'`, and the output never contains two consecutive underscores; on the
claim's input, `sanitizePath "release/v17.8!" = "release/v17.8_"`. -/
theorem sanitizePath_chars (s : String) :
    (∀ c ∈ (sanitizePathStr s).data, (allowedRune c || c == '/') = true)
    ∧ noDoubleUnderscore (sanitizePathStr s).data = true
    ∧ sanitizePathStr "release/v17.8!" = "release/v17.8_" := by
  refine ⟨?_, ?_, rfl⟩
  · intro c hc
    have hc2 : c ∈ joinSep '/' ((splitOnSep '/' s.data).map sanitizePart) := hc
    rcases mem_joinSep _ '/' c hc2 with ⟨p, hp, hcp⟩ | h
    · obtain ⟨q, _, hq⟩ := List.mem_map.mp hp
      have := mem_sanitizePart_allowed q c (hq ▸ hcp)
      simp [this]
    · simp [h]
  · refine noDoubleUnderscore_joinSep '/' (by decide) _ ?_
    intro p hp
    obtain ⟨q, _, hq⟩ := List.mem_map.mp hp
    rw [← hq]
    exact noDoubleUnderscore_collapse (q.map mapRune)

/-- Witness for `sanitizePath_chars` at a concrete character of a concrete
output. -/
theorem sanitizePath_chars_witness :
    (allowedRune 'r' || 'r' == '/') = true :=
  (sanitizePath_chars "release/v17.8!").1 'r' (by decide)

/-- Helper: mapping the rune callback over an already-allowed list changes
nothing. -/
theorem map_mapRune_of_allowed :
    ∀ l : List Char, (∀ c ∈ l, allowedRune c = true) → l.map mapRune = l := by
  intro l
  induction l with
  | nil => intro _; rfl
  | cons a t ih =>
      intro h
      have ha : mapRune a = a := by
        unfold mapRune
        rw [if_pos (h a (List.mem_cons_self a _))]
      simp only [List.map_cons, ha]
      rw [ih (fun c hc => h c (List.mem_cons_of_mem a hc))]

/-- Helper: per-part sanitisation is idempotent. -/
theorem sanitizePart_idem (p : List Char) :
    sanitizePart (sanitizePart p) = sanitizePart p := by
  unfold sanitizePart
  rw [map_mapRune_of_allowed (collapseUnderscores (p.map mapRune))
    (fun c hc => mem_sanitizePart_allowed p c hc)]
  exact collapseUnderscores_of_noDouble _ (noDoubleUnderscore_collapse _)

/-- Helper: splitting a separator-free list yields the list itself. -/
theorem splitParts_sepFree (sep : Char) :
    ∀ l : List Char, (∀ c ∈ l, c ≠ sep) → splitParts sep l = (l, []) := by
  intro l
  induction l with
  | nil => intro _; rfl
  | cons a t ih =>
      intro h
      have ha : (a == sep) = false :=
        Bool.eq_false_iff.mpr (by simpa using h a (List.mem_cons_self a _))
      simp only [splitParts, ih (fun c hc => h c (List.mem_cons_of_mem a hc)), ha,
        Bool.false_eq_true, if_false]

/-- Helper: splitting after a separator-free block. -/
theorem splitParts_append (sep : Char) :
    ∀ (xs l : List Char), (∀ c ∈ xs, c ≠ sep) →
      splitParts sep (xs ++ l) =
        (xs ++ (splitParts sep l).1, (splitParts sep l).2) := by
  intro xs
  induction xs with
  | nil => intro l _; rfl
  | cons a t ih =>
      intro l h
      have ha : (a == sep) = false :=
        Bool.eq_false_iff.mpr (by simpa using h a (List.mem_cons_self a _))
      simp only [List.cons_append, splitParts, ha, Bool.false_eq_true, if_false]
      rw [show t.append l = t ++ l from rfl,
        ih l (fun c hc => h c (List.mem_cons_of_mem a hc))]

/-- Helper: splitting a list that starts with the separator. -/
theorem splitParts_sep_cons (sep : Char) (l : List Char) :
    splitParts sep (sep :: l) =
      ([], (splitParts sep l).1 :: (splitParts sep l).2) := by
  simp [splitParts]

/-- Helper: splitting a join of separator-free parts restores the parts. -/
theorem splitOnSep_joinSep (sep : Char) :
    ∀ (ps : List (List Char)) (p : List Char),
      (∀ q ∈ p :: ps, ∀ c ∈ q, c ≠ sep) →
      splitOnSep sep (joinSep sep (p :: ps)) = p :: ps := by
  intro ps
  induction ps with
  | nil =>
      intro p h
      have := splitParts_sepFree sep p (h p (List.mem_cons_self p _))
      simp [joinSep, splitOnSep, this]
  | cons q ps2 ih =>
      intro p h
      have hp : ∀ c ∈ p, c ≠ sep := h p (List.mem_cons_self p _)
      have hrest : ∀ r ∈ q :: ps2, ∀ c ∈ r, c ≠ sep :=
        fun r hr => h r (List.mem_cons_of_mem p hr)
      have hih := ih q hrest
      simp only [splitOnSep] at hih
      simp only [joinSep, splitOnSep, splitParts_append sep p _ hp,
        splitParts_sep_cons sep, List.append_nil]
      rw [hih]

/-- Helper: per-part sanitisation of a part list is idempotent. -/
theorem map_sanitizePart_idem (ps : List (List Char)) :
    (ps.map sanitizePart).map sanitizePart = ps.map sanitizePart := by
  induction ps with
  | nil => rfl
  | cons p t ih => simp only [List.map_cons, sanitizePart_idem, ih]

/-- `sanitizePath` is idempotent on character lists. -/
theorem sanitizePath_idem_data (l : List Char) :
    sanitizePath (sanitizePath l) = sanitizePath l := by
  have hsep : ∀ q ∈ (splitOnSep '/' l).map sanitizePart, ∀ c ∈ q, c ≠ '/' := by
    intro q hq c hc hcs
    obtain ⟨r, _, hr⟩ := List.mem_map.mp hq
    have hall := mem_sanitizePart_allowed r c (hr ▸ hc)
    rw [hcs] at hall
    exact absurd hall (by decide)
  obtain ⟨p0, ps0, hcons⟩ :
      ∃ p0 ps0, (splitOnSep '/' l).map sanitizePart = p0 :: ps0 :=
    ⟨_, _, rfl⟩
  show sanitizePath (joinSep '/' ((splitOnSep '/' l).map sanitizePart)) = _
  unfold sanitizePath
  rw [hcons, splitOnSep_joinSep '/' ps0 p0 (hcons ▸ hsep), ← hcons,
    map_sanitizePart_idem]

/-- C6: `sanitizePath` is idempotent. -/
theorem sanitizePath_idempotent (s : String) :
    sanitizePathStr (sanitizePathStr s) = sanitizePathStr s :=
  congrArg String.mk (sanitizePath_idem_data s.data)

end UpgradeTest
